import Mathlib

/-
Verification of the Sparo Exam-Sync scheduling-conflict detector and offline
change reconciler.

The development shallowly embeds two route modules of the backend:

* `routes/exams.js` (here: the `check-conflicts` endpoint and the
  `conflicts/all` report), whose conflict logic runs in JavaScript over
  rows fetched from SQLite;
* `routes/offline-sync.js` (here: batch sync `POST /sync`, the per-change
  processors, `checkExamConflicts`, `storePendingChange`, the
  `resolve-change` endpoint and `simpleHash`), whose conflict logic is
  written directly in SQL.

Times of day are modelled as minutes since midnight (`Nat`, < 1440 for a
well-formed `HH:MM` value).  The SQL in `checkExamConflicts` compares the
TEXT result of `datetime(t, (m minutes as modifier))`, which renders as
`2000-01-DD HH:MM:SS`, against bare `HH:MM` strings under SQLite BINARY
collation (bytewise/memcmp order).  To capture that faithfully, SQL TEXT
values are embedded as byte lists (`List Nat`) and the comparisons as
bytewise lexicographic order; characterization lemmas then reduce those
comparisons to arithmetic.
-/

set_option maxHeartbeats 1000000

namespace ExamSync

/-- Bytewise (memcmp / SQLite BINARY collation) strict order on TEXT values,
a shorter string that is a prefix of a longer one comparing smaller. -/
def bytesLt : List Nat → List Nat → Bool
  | [], [] => false
  | [], _ :: _ => true
  | _ :: _, [] => false
  | a :: as, b :: bs => if a < b then true else if b < a then false else bytesLt as bs

/-- SQLite `X <= Y` on TEXT under BINARY collation. -/
def textLe (a b : List Nat) : Bool := !(bytesLt b a)

/-- SQLite `X > Y` on TEXT under BINARY collation. -/
def textGt (a b : List Nat) : Bool := bytesLt b a

/-- The TEXT rendering of a time-of-day `t` (minutes since midnight) in the
`HH:MM` storage format used by the exams table: byte 48 is the digit 0 and
byte 58 is the colon. -/
def timeBytes (t : Nat) : List Nat :=
  [48 + t / 600, 48 + t / 60 % 10, 58, 48 + t % 60 / 10, 48 + t % 60 % 10]

/-- The TEXT value of SQLite `datetime(x, (d minutes as modifier))` applied to
an `HH:MM` time: SQLite interprets a bare time as that time of day on
2000-01-01 and renders the shifted result as `2000-01-DD HH:MM:SS`
(`m = x + d` is the shifted total in minutes; byte 45 is the hyphen and
byte 32 the space).  The day field is rendered correctly for results within
January 2000; every comparison performed by the embedded queries is decided
on the leading `200` prefix, which SQLite produces for any representable
result, so no lemma below depends on the day bytes. -/
def datetimeBytes (m : Nat) : List Nat :=
  [50, 48, 48, 48, 45, 48, 49, 45, 48 + (1 + m / 1440) / 10, 48 + (1 + m / 1440) % 10, 32]
    ++ timeBytes (m % 1440) ++ [58, 48, 48]

theorem bytesLt_timeBytes {a b : Nat} (ha : a < 1440) (hb : b < 1440) :
    bytesLt (timeBytes a) (timeBytes b) = true ↔ a < b := by
  simp only [timeBytes, bytesLt]
  split_ifs <;> simp <;> omega

theorem textLe_timeBytes {a b : Nat} (ha : a < 1440) (hb : b < 1440) :
    textLe (timeBytes a) (timeBytes b) = true ↔ a ≤ b := by
  have h := bytesLt_timeBytes hb ha
  simp only [textLe, Bool.not_eq_true']
  constructor
  · intro hf
    by_contra hab
    exact absurd (h.mpr (by omega)) (by simp [hf])
  · intro hab
    cases hlt : bytesLt (timeBytes b) (timeBytes a) with
    | false => rfl
    | true => exact absurd (h.mp hlt) (by omega)

theorem textGt_datetimeBytes_timeBytes {m t : Nat} (ht : t < 1440) :
    textGt (datetimeBytes m) (timeBytes t) = true ↔ t < 1200 := by
  simp only [textGt, datetimeBytes, timeBytes, List.cons_append, List.nil_append, bytesLt]
  split_ifs <;> simp <;> omega

/-! ## Data model

Rows of the `exams` table.  `time` is minutes since midnight (the stored
TEXT form is `timeBytes time`), `duration` is in minutes, `status` is the
nullable status column.  Columns not consulted by the embedded routes
(timestamps, joined creator name) are not carried. -/

inductive Status
  | upcoming
  | ongoing
  | completed
  | cancelled
deriving DecidableEq, Repr

structure Exam where
  id : Nat
  course_code : String
  course_name : String
  date : String
  time : Nat
  venue : String
  duration : Nat
  status : Option Status
  created_by : Nat
deriving DecidableEq, Repr

/-! ## POST /check-conflicts (routes/exams.js)

The endpoint fetches every exam with the candidate date and status
`upcoming`, minus the `excludeId` row when that field is present, then in
JavaScript classifies each fetched row.  Response entries also echo row
fields and an `overlapMinutes` diagnostic; the embedding carries the
fields the conflict decision produces (`id`, `conflictType`, `severity`).
-/

structure Candidate where
  date : String
  time : Nat
  venue : String
  duration : Nat
  excludeId : Option Nat
deriving DecidableEq, Repr

inductive ConflictType
  | time_overlap
  | venue_conflict
  | both
  | unknown
deriving DecidableEq, Repr

inductive Severity
  | warning
  | error
deriving DecidableEq, Repr

structure ConflictEntry where
  examId : Nat
  conflictType : ConflictType
  severity : Severity
deriving DecidableEq, Repr

/-- The SQL pool of the conflict check: `WHERE e.date = ? AND e.status =
(upcoming) [AND e.id != ?]`, the exclusion clause appended only when the
request carries a (truthy) `excludeId`. -/
def conflictPool (c : Candidate) (exams : List Exam) : List Exam :=
  exams.filter (fun e =>
    e.date == c.date && e.status == some Status.upcoming
      && c.excludeId.all (fun x => e.id != x))

/-- `examStart < existingEnd && examEnd > existingStart`, with
`end = start + duration * 60000` in JavaScript `Date` milliseconds; on a
shared date this is minute arithmetic. -/
def jsTimeOverlap (c : Candidate) (e : Exam) : Bool :=
  decide (c.time < e.time + e.duration) && decide (e.time < c.time + c.duration)

/-- The per-row JavaScript loop body of the conflict check: a row is pushed
iff `timeOverlap || venueConflict`, classified by the `if`/`else if` chain
of the source (initial value of `conflictType` is the string `unknown`,
initial severity `warning`, overwritten by the chain). -/
def conflictLoop (c : Candidate) : List Exam → List ConflictEntry
  | [] => []
  | e :: rest =>
    let timeOverlap := jsTimeOverlap c e
    let venueConflict := e.venue == c.venue
    if timeOverlap || venueConflict then
      { examId := e.id
        conflictType :=
          if timeOverlap && venueConflict then .both
          else if venueConflict then .venue_conflict
          else if timeOverlap then .time_overlap
          else .unknown
        severity := if timeOverlap && venueConflict then .error else .warning }
        :: conflictLoop c rest
    else
      conflictLoop c rest

def checkConflicts (c : Candidate) (exams : List Exam) : List ConflictEntry :=
  conflictLoop c (conflictPool c exams)

/-- The half-open interval overlap predicate as the specification words it:
`candidateStart < existingEnd AND existingStart < candidateEnd` with
`end = start + duration`. -/
def specTimeOverlap (c : Candidate) (e : Exam) : Prop :=
  c.time < e.time + e.duration ∧ e.time < c.time + c.duration

instance (c : Candidate) (e : Exam) : Decidable (specTimeOverlap c e) :=
  inferInstanceAs (Decidable (And _ _))

/-- The conflict entry the specification predicts for a colliding pair:
`both` when time and venue both collide (severity `error`), else
`venue_conflict` when the venue matches, else `time_overlap` (severity
`warning`). -/
def specEntry (c : Candidate) (e : Exam) : ConflictEntry :=
  { examId := e.id
    conflictType :=
      if specTimeOverlap c e ∧ e.venue = c.venue then .both
      else if e.venue = c.venue then .venue_conflict
      else .time_overlap
    severity := if specTimeOverlap c e ∧ e.venue = c.venue then .error else .warning }

theorem mem_conflictLoop {c : Candidate} {pool : List Exam} {r : ConflictEntry} :
    r ∈ conflictLoop c pool ↔
      ∃ e, e ∈ pool ∧ (specTimeOverlap c e ∨ e.venue = c.venue) ∧ r = specEntry c e := by
  induction pool with
  | nil => simp [conflictLoop]
  | cons e rest ih =>
    simp only [conflictLoop]
    by_cases hcond : specTimeOverlap c e ∨ e.venue = c.venue
    · have hb : (jsTimeOverlap c e || (e.venue == c.venue)) = true := by
        rcases hcond with h | h
        · simp [jsTimeOverlap, h.1, h.2]
        · simp [h]
      rw [if_pos hb]
      have hentry :
          ({ examId := e.id
             conflictType :=
               if jsTimeOverlap c e && (e.venue == c.venue) then .both
               else if e.venue == c.venue then .venue_conflict
               else if jsTimeOverlap c e then .time_overlap
               else .unknown
             severity :=
               if jsTimeOverlap c e && (e.venue == c.venue) then .error
               else .warning } : ConflictEntry) = specEntry c e := by
        have hts : (jsTimeOverlap c e = true) ↔ specTimeOverlap c e := by
          simp [jsTimeOverlap, specTimeOverlap]
        have hvs : ((e.venue == c.venue) = true) ↔ e.venue = c.venue := beq_iff_eq ..
        simp only [specEntry]
        rcases hcond with h | h <;>
          rcases Decidable.em (specTimeOverlap c e) with ht | ht <;>
          rcases Decidable.em (e.venue = c.venue) with hv | hv <;>
          simp_all
      constructor
      · intro hr
        rcases List.mem_cons.mp hr with hr | hr
        · exact ⟨e, List.mem_cons_self .., hcond, by rw [hr, hentry]⟩
        · obtain ⟨x, hx, hcx, hrx⟩ := ih.mp hr
          exact ⟨x, List.mem_cons_of_mem _ hx, hcx, hrx⟩
      · rintro ⟨x, hx, hcx, hrx⟩
        rcases List.mem_cons.mp hx with rfl | hx
        · exact List.mem_cons.mpr (.inl (by rw [hrx, hentry]))
        · exact List.mem_cons.mpr (.inr (ih.mpr ⟨x, hx, hcx, hrx⟩))
    · have hb : (jsTimeOverlap c e || (e.venue == c.venue)) = false := by
        push_neg at hcond
        have h1 : jsTimeOverlap c e = false := by
          have hno : ¬ specTimeOverlap c e := hcond.1
          simp only [specTimeOverlap, not_and_or] at hno
          rcases hno with h | h <;> simp [jsTimeOverlap, h]
        have h2 : (e.venue == c.venue) = false := by
          simpa using hcond.2
        simp [h1, h2]
      rw [hb]
      simp only [Bool.false_eq_true, if_false, ih]
      constructor
      · rintro ⟨x, hx, hcx, hrx⟩
        exact ⟨x, List.mem_cons_of_mem _ hx, hcx, hrx⟩
      · rintro ⟨x, hx, hcx, hrx⟩
        rcases List.mem_cons.mp hx with rfl | hx
        · exact absurd hcx hcond
        · exact ⟨x, hx, hcx, hrx⟩

theorem excludeId_all_iff (o : Option Nat) (n : Nat) :
    (o.all fun x => n != x) = true ↔ ∀ x, o = some x → n ≠ x := by
  cases o <;> simp

/-- Claim C1: for the conflict-check operation, for every existing booking on
the candidate date with status upcoming (excluding the `excludeId` booking
when given), a conflict is recorded iff the half-open time intervals overlap
or the venues are equal, classified `both` / `venue_conflict` /
`time_overlap` with severity `error` exactly for `both`. -/
theorem C1_check_conflicts_characterization
    (c : Candidate) (exams : List Exam) (r : ConflictEntry) :
    r ∈ checkConflicts c exams ↔
      ∃ e, e ∈ exams ∧ e.date = c.date ∧ e.status = some Status.upcoming ∧
        (∀ x, c.excludeId = some x → e.id ≠ x) ∧
        (specTimeOverlap c e ∨ e.venue = c.venue) ∧ r = specEntry c e := by
  unfold checkConflicts
  rw [mem_conflictLoop]
  constructor
  · rintro ⟨e, he, hc, hr⟩
    obtain ⟨hmem, hf⟩ := List.mem_filter.mp he
    simp only [Bool.and_eq_true, beq_iff_eq] at hf
    exact ⟨e, hmem, hf.1.1, hf.1.2, (excludeId_all_iff _ _).mp hf.2, hc, hr⟩
  · rintro ⟨e, hmem, hd, hs, hx, hc, hr⟩
    refine ⟨e, List.mem_filter.mpr ⟨hmem, ?_⟩, hc, hr⟩
    simp only [Bool.and_eq_true, beq_iff_eq]
    exact ⟨⟨hd, hs⟩, (excludeId_all_iff _ _).mpr hx⟩

/-! ## GET /conflicts/all (routes/exams.js)

The system-wide report: all upcoming exams are fetched (`WHERE e.status =
(upcoming) ORDER BY e.date, e.time`) and every index pair `i < j` is
examined in JavaScript.  The `ORDER BY` only fixes which element of a pair
is reported as `exam1`; the embedding takes the fetched rows in list
order. -/

def upcomingPool (exams : List Exam) : List Exam :=
  exams.filter (fun e => e.status == some Status.upcoming)

structure PairConflict where
  exam1 : Exam
  exam2 : Exam
  conflictType : ConflictType
  date : String
  severity : Severity
deriving DecidableEq, Repr

/-- Body of the nested pair loop: pairs on different dates are skipped
(`continue`); a record is pushed only when `start1 < end2 && end1 > start2`,
typed `both` (severity `error`) when the venues match and `time_overlap`
(severity `warning`) otherwise. -/
def pairEntry (e1 e2 : Exam) : Option PairConflict :=
  if e1.date ≠ e2.date then none
  else if e1.time < e2.time + e2.duration ∧ e2.time < e1.time + e1.duration then
    some { exam1 := e1
           exam2 := e2
           conflictType := if e1.venue = e2.venue then .both else .time_overlap
           date := e1.date
           severity := if e1.venue = e2.venue then .error else .warning }
  else none

def pairLoop : List Exam → List PairConflict
  | [] => []
  | e :: rest => rest.filterMap (pairEntry e) ++ pairLoop rest

def detectAllConflicts (exams : List Exam) : List PairConflict :=
  pairLoop (upcomingPool exams)

theorem mem_pairLoop {l : List Exam} {r : PairConflict} :
    r ∈ pairLoop l ↔
      ∃ e1 e2, List.Sublist [e1, e2] l ∧ pairEntry e1 e2 = some r := by
  induction l with
  | nil => simp [pairLoop]
  | cons e rest ih =>
    simp only [pairLoop, List.mem_append, List.mem_filterMap, ih]
    constructor
    · rintro (⟨e2, h2, hEntry⟩ | ⟨e1, e2, hsub, hEntry⟩)
      · exact ⟨e, e2, List.cons_sublist_cons.mpr (List.singleton_sublist.mpr h2), hEntry⟩
      · exact ⟨e1, e2, List.sublist_cons_iff.mpr (.inl hsub), hEntry⟩
    · rintro ⟨e1, e2, hsub, hEntry⟩
      rcases List.sublist_cons_iff.mp hsub with hsub | ⟨tl, htl, hsub⟩
      · exact .inr ⟨e1, e2, hsub, hEntry⟩
      · obtain ⟨rfl, rfl⟩ : e1 = e ∧ tl = [e2] := by
          injection htl with h1 h2
          exact ⟨h1, h2.symm⟩
        exact .inl ⟨e2, List.singleton_sublist.mp hsub, hEntry⟩

def reportedRoom101Morning : Exam :=
  { id := 1
    course_code := "CS101"
    course_name := "Algorithms"
    date := "2024-12-15"
    time := 540
    venue := "Room 101"
    duration := 60
    status := some .upcoming
    created_by := 1 }

def reportedRoom101Afternoon : Exam :=
  { id := 2
    course_code := "MA201"
    course_name := "Linear Algebra"
    date := "2024-12-15"
    time := 840
    venue := "Room 101"
    duration := 60
    status := some .upcoming
    created_by := 2 }

/-- Claim C4 counterexample: two upcoming bookings share the date and the
venue but their times (09:00 to 10:00 and 14:00 to 15:00) do not overlap.
The claim classifies the pair as `both`; the system-wide report ignores it
entirely, because the source gates every record on time overlap. -/
theorem C4_counterexample :
    reportedRoom101Morning.date = reportedRoom101Afternoon.date ∧
    reportedRoom101Morning.venue = reportedRoom101Afternoon.venue ∧
    reportedRoom101Morning.status = some Status.upcoming ∧
    reportedRoom101Afternoon.status = some Status.upcoming ∧
    detectAllConflicts [reportedRoom101Morning, reportedRoom101Afternoon] = [] := by
  refine ⟨rfl, rfl, rfl, rfl, rfl⟩

/-- Claim C4 amended: the system-wide report records a pair of upcoming
bookings iff they share a date AND their half-open intervals overlap; an
overlapping pair is classified `both` (severity `error`) when the venues
match and `time_overlap` (severity `warning`) otherwise; pairs without time
overlap are ignored even when the venues match. -/
theorem C4_detect_all_characterization (exams : List Exam) (r : PairConflict) :
    r ∈ detectAllConflicts exams ↔
      ∃ e1 e2, List.Sublist [e1, e2] (upcomingPool exams) ∧
        e1.date = e2.date ∧
        (e1.time < e2.time + e2.duration ∧ e2.time < e1.time + e1.duration) ∧
        r = { exam1 := e1
              exam2 := e2
              conflictType := if e1.venue = e2.venue then .both else .time_overlap
              date := e1.date
              severity := if e1.venue = e2.venue then .error else .warning } := by
  unfold detectAllConflicts
  rw [mem_pairLoop]
  constructor
  · rintro ⟨e1, e2, hsub, hEntry⟩
    unfold pairEntry at hEntry
    by_cases hd : e1.date ≠ e2.date
    · rw [if_pos hd] at hEntry
      exact absurd hEntry (by simp)
    · rw [if_neg hd] at hEntry
      by_cases ho : e1.time < e2.time + e2.duration ∧ e2.time < e1.time + e1.duration
      · rw [if_pos ho] at hEntry
        exact ⟨e1, e2, hsub, not_not.mp hd, ho, (Option.some_inj.mp hEntry).symm⟩
      · rw [if_neg ho] at hEntry
        exact absurd hEntry (by simp)
  · rintro ⟨e1, e2, hsub, hd, ho, hr⟩
    refine ⟨e1, e2, hsub, ?_⟩
    unfold pairEntry
    rw [if_neg (not_not.mpr hd), if_pos ho, hr]

/-! ## routes/offline-sync.js

Batch sync of queued offline changes.  The conflict decision of this module
is written in SQL (`checkExamConflicts`); its two queries share a time
condition that compares `datetime(time, (duration minutes))` TEXT against
bare `HH:MM` TEXT, embedded below through `sqlTimeCond`. -/

/-- Columns selected by both conflict queries (`id`, `course_code`,
`course_name`, `date`, `time`, `duration`, plus the joined creator name,
which is not carried). -/
structure ConflictRow where
  id : Nat
  course_code : String
  course_name : String
  date : String
  time : Nat
  duration : Nat
deriving DecidableEq, Repr

def rowOf (e : Exam) : ConflictRow :=
  { id := e.id
    course_code := e.course_code
    course_name := e.course_name
    date := e.date
    time := e.time
    duration := e.duration }

/-- One entry of the `conflicts` array built by `checkExamConflicts`. -/
structure ConflictGroup where
  ctype : String
  severity : String
  message : String
  conflictingExams : List ConflictRow
deriving DecidableEq, Repr

/-- The JSON `data` object of an exam change.  `status` is optional
(`data.status || upcoming` on create); `conflicts` models the extra field a
pending payload carries (`{ ...data, conflicts }`), empty on ordinary
client payloads. -/
structure ExamData where
  id : Nat
  course_code : String
  course_name : String
  date : String
  time : Nat
  venue : String
  duration : Nat
  status : Option Status
  conflicts : List ConflictGroup
deriving DecidableEq, Repr

/-- A row of `offline_pending_changes` (`change_id TEXT UNIQUE NOT NULL`).
`created_at` is the epoch-millisecond timestamp of the save. -/
structure PendingRow where
  change_id : String
  change_type : String
  change_action : String
  change_data : ExamData
  user_id : Nat
  device_id : String
  created_at : Nat
deriving DecidableEq, Repr

/-- A row of the notifications table, reduced to the columns the sync
processors touch. -/
structure NotifRow where
  id : Nat
  user_id : Nat
  is_read : Bool
deriving DecidableEq, Repr

/-- The mutable storage the offline-sync handlers read and write.
`nextExamId` models the AUTOINCREMENT id the next `INSERT INTO exams`
receives (`result.lastID`). -/
structure DB where
  exams : List Exam
  nextExamId : Nat
  pending : List PendingRow
  notifs : List NotifRow
deriving DecidableEq, Repr

/-- The time condition shared by both queries of `checkExamConflicts`:

`(e.time <= c AND datetime(e.time, (e.duration minutes)) > c) OR
 (c <= e.time AND datetime(c, (c.duration minutes)) > e.time)`

with `c` the candidate time.  The `datetime(..)` operands are full
`2000-01-DD HH:MM:SS` strings compared bytewise against `HH:MM` strings. -/
def sqlTimeCond (cT cD eT eD : Nat) : Bool :=
  (textLe (timeBytes eT) (timeBytes cT) && textGt (datetimeBytes (eT + eD)) (timeBytes cT))
    || (textLe (timeBytes cT) (timeBytes eT) && textGt (datetimeBytes (cT + cD)) (timeBytes eT))

/-- Rows of the first query: same date, time condition, status upcoming. -/
def timeConflictRows (d : ExamData) (exams : List Exam) : List Exam :=
  exams.filter (fun e =>
    e.date == d.date && sqlTimeCond d.time d.duration e.time e.duration
      && e.status == some Status.upcoming)

/-- Rows of the second query: same date, same venue, status upcoming, and
the same time condition. -/
def venueConflictRows (d : ExamData) (exams : List Exam) : List Exam :=
  exams.filter (fun e =>
    e.date == d.date && e.venue == d.venue && e.status == some Status.upcoming
      && sqlTimeCond d.time d.duration e.time e.duration)

def checkExamConflicts (d : ExamData) (exams : List Exam) : List ConflictGroup :=
  let timeConflicts := timeConflictRows d exams
  let venueConflicts := venueConflictRows d exams
  (if timeConflicts.length > 0 then
    [{ ctype := "time_overlap"
       severity := "high"
       message := "Time conflict with " ++ toString timeConflicts.length ++ " exam(s)"
       conflictingExams := timeConflicts.map rowOf }]
   else []) ++
  (if venueConflicts.length > 0 then
    [{ ctype := "venue_conflict"
       severity := "high"
       message := "Venue conflict with " ++ toString venueConflicts.length ++ " exam(s)"
       conflictingExams := venueConflicts.map rowOf }]
   else [])

/-- `INSERT OR REPLACE INTO offline_pending_changes`: with `change_id`
UNIQUE, a conflicting row is deleted and the fresh row inserted. -/
def storePendingChange (p : PendingRow) (tbl : List PendingRow) : List PendingRow :=
  tbl.filter (fun q => q.change_id != p.change_id) ++ [p]

/-- The errors a per-change processor can raise.  `referenceErrorReq` is the
JavaScript `ReferenceError: req is not defined` raised by the permission
checks of the update and delete branches, which read `req.user.role` although
no `req` is in scope inside `processExamChange`; `typeErrorUndefined` is the
TypeError raised when a resolve-with-modify request carries no
`modifiedData`. -/
inductive SyncError
  | unknownChangeType (t : String)
  | unknownExamAction (a : String)
  | unknownNotificationAction (a : String)
  | examNotFound
  | referenceErrorReq
  | typeErrorUndefined
deriving DecidableEq, Repr

/-- The per-item result object a processor returns.  `examId` is present
only where the source sets it; `conflicts` is nonempty only on the
pending-resolution result. -/
structure ItemResult where
  changeId : Nat
  action : String
  examId : Option Nat
  message : String
  conflicts : List ConflictGroup
deriving DecidableEq, Repr

/-- The exam row the create branch inserts: owner is the acting user,
status defaults to upcoming (`data.status || upcoming`), the id is the
AUTOINCREMENT value (`result.lastID`). -/
def createdExam (d : ExamData) (userId examId : Nat) : Exam :=
  { id := examId
    course_code := d.course_code
    course_name := d.course_name
    date := d.date
    time := d.time
    venue := d.venue
    duration := d.duration
    status := some (d.status.getD Status.upcoming)
    created_by := userId }

/-- The pending row the create branch stores when conflicts were found:
the change id is the server-generated `exam_create_` ++ `Date.now()` and
the payload is the candidate data plus the computed conflicts. -/
def pendingRowFor (d : ExamData) (groups : List ConflictGroup) (userId : Nat)
    (deviceId : String) (now : Nat) : PendingRow :=
  { change_id := "exam_create_" ++ toString now
    change_type := "exam"
    change_action := "create"
    change_data := { d with conflicts := groups }
    user_id := userId
    device_id := deviceId
    created_at := now }

/-- `processExamChange`.  `now` is the `Date.now()` value observed by the
create branch. -/
def processExamChange (action : String) (d : ExamData) (userId : Nat)
    (deviceId : String) (now : Nat) (db : DB) : Except SyncError (ItemResult × DB) :=
  if action == "create" then
    let conflicts := checkExamConflicts d db.exams
    if conflicts.length > 0 then
      .ok ({ changeId := d.id
             action := "pending_resolution"
             examId := none
             message := "Exam creation pending conflict resolution"
             conflicts := conflicts },
           { db with
             pending :=
               storePendingChange (pendingRowFor d conflicts userId deviceId now)
                 db.pending })
    else
      .ok ({ changeId := d.id
             action := "created"
             examId := some db.nextExamId
             message := "Exam created successfully"
             conflicts := [] },
           { db with
             exams := db.exams ++ [createdExam d userId db.nextExamId]
             nextExamId := db.nextExamId + 1 })
  else if action == "update" then
    match db.exams.find? (fun e => e.id == d.id) with
    | none => .error .examNotFound
    | some e =>
      if e.created_by != userId then
        .error .referenceErrorReq
      else
        .ok ({ changeId := d.id
               action := "updated"
               examId := some d.id
               message := "Exam updated successfully"
               conflicts := [] },
             { db with exams := db.exams.map (fun e2 =>
                 if e2.id = d.id then
                   { e2 with
                     course_code := d.course_code
                     course_name := d.course_name
                     date := d.date
                     time := d.time
                     venue := d.venue
                     duration := d.duration
                     status := d.status }
                 else e2) })
  else if action == "delete" then
    match db.exams.find? (fun e => e.id == d.id) with
    | none => .error .examNotFound
    | some e =>
      if e.created_by != userId then
        .error .referenceErrorReq
      else
        .ok ({ changeId := d.id
               action := "deleted"
               examId := some d.id
               message := "Exam deleted successfully"
               conflicts := [] },
             { db with exams := db.exams.filter (fun e2 => e2.id != d.id) })
  else
    .error (.unknownExamAction action)

def processNotificationChange (action : String) (d : ExamData) (userId : Nat)
    (db : DB) : Except SyncError (ItemResult × DB) :=
  if action == "mark_read" then
    .ok ({ changeId := d.id
           action := "marked_read"
           examId := none
           message := "Notification marked as read"
           conflicts := [] },
         { db with notifs := db.notifs.map (fun n =>
             if n.id = d.id ∧ n.user_id = userId then { n with is_read := true } else n) })
  else if action == "delete" then
    .ok ({ changeId := d.id
           action := "deleted"
           examId := none
           message := "Notification deleted"
           conflicts := [] },
         { db with notifs := db.notifs.filter (fun n =>
             !(n.id == d.id && n.user_id == userId)) })
  else
    .error (.unknownNotificationAction action)

/-- A batch item: `{ id, type, action, data, timestamp }` (the timestamp is
never read by the processors and is not carried; the source field `type` is
named `ctype` here). -/
structure Change where
  id : String
  ctype : String
  action : String
  data : ExamData
deriving DecidableEq, Repr

def processOfflineChange (change : Change) (userId : Nat) (deviceId : String)
    (now : Nat) (db : DB) : Except SyncError (ItemResult × DB) :=
  if change.ctype == "exam" then
    processExamChange change.action change.data userId deviceId now db
  else if change.ctype == "notification" then
    processNotificationChange change.action change.data userId db
  else
    .error (.unknownChangeType change.ctype)

structure SyncSummary where
  total : Nat
  processed : Nat
  successful : Nat
  failed : Nat
  conflicts : Nat
deriving DecidableEq, Repr

structure FailedItem where
  changeId : String
  errorOf : SyncError
deriving DecidableEq, Repr

structure SyncResults where
  successful : List ItemResult
  failed : List FailedItem
  conflicts : List ItemResult
  summary : SyncSummary
deriving DecidableEq, Repr

/-- The per-item loop of `POST /sync`: each change is processed inside a
try/catch; an `.ok` result is appended to `successful`, a raised error to
`failed` (recording the change id and the error), and `summary.processed`
is incremented either way before the loop continues with the next change.
`clock i` is the `Date.now()` value observed while processing item `i`. -/
def syncLoop (userId : Nat) (deviceId : String) (clock : Nat → Nat) :
    Nat → List Change → DB → SyncResults → SyncResults × DB
  | _, [], db, acc => (acc, db)
  | i, ch :: rest, db, acc =>
    match processOfflineChange ch userId deviceId (clock i) db with
    | .ok (r, db1) =>
      syncLoop userId deviceId clock (i + 1) rest db1
        { acc with
          successful := acc.successful ++ [r]
          summary := { acc.summary with
            successful := acc.summary.successful + 1
            processed := acc.summary.processed + 1 } }
    | .error e =>
      syncLoop userId deviceId clock (i + 1) rest db
        { acc with
          failed := acc.failed ++ [{ changeId := ch.id, errorOf := e }]
          summary := { acc.summary with
            failed := acc.summary.failed + 1
            processed := acc.summary.processed + 1 } }

def emptyResults (total : Nat) : SyncResults :=
  { successful := []
    failed := []
    conflicts := []
    summary := { total := total, processed := 0, successful := 0, failed := 0, conflicts := 0 } }

/-- `POST /sync`: processes the batch in order over the initial result
structure (whose `conflicts` list and counters start empty). -/
def applySync (userId : Nat) (deviceId : String) (clock : Nat → Nat)
    (changes : List Change) (db : DB) : SyncResults × DB :=
  syncLoop userId deviceId clock 0 changes db (emptyResults changes.length)

inductive ResolveError
  | pendingNotFound
  | processing (e : SyncError)
deriving DecidableEq, Repr

/-- `POST /resolve-change/:changeId`.  The pending row is looked up scoped
to the acting user; `accept` re-invokes `processOfflineChange` on the stored
payload, `modify` on the request `modifiedData`, any other resolution skips
reprocessing; afterwards the row with this change id is deleted.  An error
thrown by reprocessing propagates to the catch (a 500 response) before the
delete statement runs. -/
def resolveChange (changeId : String) (userId : Nat) (resolution : String)
    (modifiedData : Option ExamData) (now : Nat) (db : DB) :
    Except ResolveError (DB × String) :=
  match db.pending.find? (fun p => p.change_id == changeId && p.user_id == userId) with
  | none => .error .pendingNotFound
  | some p =>
    let step : Except SyncError DB :=
      if resolution == "accept" then
        (processOfflineChange
          { id := changeId, ctype := p.change_type, action := p.change_action,
            data := p.change_data } userId p.device_id now db).map (fun x => x.2)
      else if resolution == "modify" then
        match modifiedData with
        | some d2 =>
          (processOfflineChange
            { id := changeId, ctype := p.change_type, action := p.change_action,
              data := d2 } userId p.device_id now db).map (fun x => x.2)
        | none => .error .typeErrorUndefined
      else
        .ok db
    match step with
    | .error e => .error (.processing e)
    | .ok db1 =>
      .ok ({ db1 with pending := db1.pending.filter (fun q => q.change_id != changeId) },
           "Change " ++ changeId ++ " resolved with " ++ resolution)

/-! ## The SQL time condition, characterized -/

theorem sqlTimeCond_iff {cT cD eT eD : Nat} (hc : cT < 1440) (he : eT < 1440) :
    sqlTimeCond cT cD eT eD = true ↔
      ((eT ≤ cT ∧ cT < 1200) ∨ (cT ≤ eT ∧ eT < 1200)) := by
  simp only [sqlTimeCond, Bool.or_eq_true, Bool.and_eq_true]
  rw [textLe_timeBytes he hc, textLe_timeBytes hc he,
    textGt_datetimeBytes_timeBytes hc, textGt_datetimeBytes_timeBytes he]

/-- What actually blocks an offline create: same date, status upcoming,
and the degenerate time condition.  The `datetime(..) > (HH:MM)` TEXT
comparisons of the SQL are decided by the leading `2000-` of the rendered
datetime, so they hold iff the right-hand time is below 20:00 (1200
minutes), independently of either duration. -/
def blocks (d : ExamData) (e : Exam) : Prop :=
  e.date = d.date ∧ e.status = some Status.upcoming ∧
    ((e.time ≤ d.time ∧ d.time < 1200) ∨ (d.time ≤ e.time ∧ e.time < 1200))

instance (d : ExamData) (e : Exam) : Decidable (blocks d e) :=
  inferInstanceAs (Decidable (And _ _))

theorem timeConflictRows_eq_nil_iff {d : ExamData} {exams : List Exam}
    (hd : d.time < 1440) (he : ∀ e ∈ exams, e.time < 1440) :
    timeConflictRows d exams = [] ↔ ∀ e ∈ exams, ¬ blocks d e := by
  rw [timeConflictRows, List.filter_eq_nil_iff]
  constructor
  · intro h e he2 hb
    apply h e he2
    simp only [Bool.and_eq_true, beq_iff_eq]
    exact ⟨⟨hb.1, (sqlTimeCond_iff hd (he e he2)).mpr hb.2.2⟩, hb.2.1⟩
  · intro h e he2 hp
    simp only [Bool.and_eq_true, beq_iff_eq] at hp
    exact h e he2 ⟨hp.1.1, hp.2, (sqlTimeCond_iff hd (he e he2)).mp hp.1.2⟩

theorem venueConflictRows_eq_nil {d : ExamData} {exams : List Exam}
    (h : timeConflictRows d exams = []) : venueConflictRows d exams = [] := by
  rw [timeConflictRows, List.filter_eq_nil_iff] at h
  rw [venueConflictRows, List.filter_eq_nil_iff]
  intro e he2 hp
  simp only [Bool.and_eq_true] at hp
  apply h e he2
  simp only [Bool.and_eq_true]
  exact ⟨⟨hp.1.1.1, hp.2⟩, hp.1.2⟩

theorem checkExamConflicts_eq_nil_iff {d : ExamData} {exams : List Exam}
    (hd : d.time < 1440) (he : ∀ e ∈ exams, e.time < 1440) :
    checkExamConflicts d exams = [] ↔ ∀ e ∈ exams, ¬ blocks d e := by
  unfold checkExamConflicts
  constructor
  · intro h
    by_cases ht : timeConflictRows d exams = []
    · exact (timeConflictRows_eq_nil_iff hd he).mp ht
    · exfalso
      have hlen : 0 < (timeConflictRows d exams).length :=
        List.length_pos.mpr ht
      simp [hlen] at h
  · intro h
    have ht : timeConflictRows d exams = [] :=
      (timeConflictRows_eq_nil_iff hd he).mpr h
    have hv : venueConflictRows d exams = [] := venueConflictRows_eq_nil ht
    simp [ht, hv]

theorem processExamChange_create_pending (d : ExamData) (userId : Nat)
    (deviceId : String) (now : Nat) (db : DB)
    (h : checkExamConflicts d db.exams ≠ []) :
    processExamChange "create" d userId deviceId now db =
      .ok ({ changeId := d.id
             action := "pending_resolution"
             examId := none
             message := "Exam creation pending conflict resolution"
             conflicts := checkExamConflicts d db.exams },
           { db with
             pending :=
               storePendingChange
                 (pendingRowFor d (checkExamConflicts d db.exams) userId deviceId now)
                 db.pending }) := by
  have hlen : 0 < (checkExamConflicts d db.exams).length := List.length_pos.mpr h
  simp [processExamChange, hlen]

theorem processExamChange_create_committed (d : ExamData) (userId : Nat)
    (deviceId : String) (now : Nat) (db : DB)
    (h : checkExamConflicts d db.exams = []) :
    processExamChange "create" d userId deviceId now db =
      .ok ({ changeId := d.id
             action := "created"
             examId := some db.nextExamId
             message := "Exam created successfully"
             conflicts := [] },
           { db with
             exams := db.exams ++ [createdExam d userId db.nextExamId]
             nextExamId := db.nextExamId + 1 }) := by
  simp [processExamChange, h]

/-! ## Claim C2 -/

def offlineAfternoonExam : Exam :=
  { id := 11
    course_code := "PH100"
    course_name := "Physics I"
    date := "2024-12-15"
    time := 840
    venue := "Room 202"
    duration := 60
    status := some .upcoming
    created_by := 2 }

def offlineCandidateData : ExamData :=
  { id := 7
    course_code := "CS101"
    course_name := "Algorithms"
    date := "2024-12-15"
    time := 540
    venue := "Room 101"
    duration := 60
    status := none
    conflicts := [] }

def offlineDb : DB :=
  { exams := [offlineAfternoonExam], nextExamId := 12, pending := [], notifs := [] }

/-- Claim C2 counterexample: the candidate (09:00 to 10:00, Room 101)
neither time-overlaps with nor shares the venue of the only same-date
upcoming booking (14:00 to 15:00, Room 202), so the claim commits it as
`created`; the code instead reports `pending_resolution`, inserts no
booking, and persists a pending change, because the SQL time condition of
`checkExamConflicts` flags the disjoint pair. -/
theorem C2_counterexample :
    offlineCandidateData.time + offlineCandidateData.duration ≤ offlineAfternoonExam.time ∧
    offlineCandidateData.venue ≠ offlineAfternoonExam.venue ∧
    offlineAfternoonExam.date = offlineCandidateData.date ∧
    offlineAfternoonExam.status = some Status.upcoming ∧
    (processExamChange "create" offlineCandidateData 1 "device-1" 1000 offlineDb).toOption.map
        (fun x => (x.1.action, x.2.exams, x.2.pending.length)) =
      some ("pending_resolution", [offlineAfternoonExam], 1) := by
  refine ⟨by decide, by decide, rfl, rfl, rfl⟩

/-- Claim C2 amended: a batch `exam.create` is committed as a new booking
owned by the acting user and reported `created` iff NO same-date upcoming
booking satisfies the degenerate SQL predicate of `blocks` (in which time
overlap, venue and durations play no part: a same-date upcoming booking
blocks whenever the earlier of the two start times is before 20:00); when
one does, no booking is inserted, a PendingChange holding the candidate
data plus the computed conflicts is persisted, and the item is reported
`pending_resolution` rather than as an error. -/
theorem C2_offline_create_outcome
    (d : ExamData) (userId : Nat) (deviceId : String) (now : Nat) (db : DB)
    (hd : d.time < 1440) (he : ∀ e ∈ db.exams, e.time < 1440) :
    ((∀ e ∈ db.exams, ¬ blocks d e) →
      processExamChange "create" d userId deviceId now db =
        .ok ({ changeId := d.id
               action := "created"
               examId := some db.nextExamId
               message := "Exam created successfully"
               conflicts := [] },
             { db with
               exams := db.exams ++ [createdExam d userId db.nextExamId]
               nextExamId := db.nextExamId + 1 })) ∧
    ((∃ e ∈ db.exams, blocks d e) →
      checkExamConflicts d db.exams ≠ [] ∧
      processExamChange "create" d userId deviceId now db =
        .ok ({ changeId := d.id
               action := "pending_resolution"
               examId := none
               message := "Exam creation pending conflict resolution"
               conflicts := checkExamConflicts d db.exams },
             { db with
               pending :=
                 storePendingChange
                   (pendingRowFor d (checkExamConflicts d db.exams) userId deviceId now)
                   db.pending })) := by
  constructor
  · intro h
    exact processExamChange_create_committed d userId deviceId now db
      ((checkExamConflicts_eq_nil_iff hd he).mpr h)
  · intro h
    have hne : checkExamConflicts d db.exams ≠ [] := by
      intro h0
      obtain ⟨e, he2, hb⟩ := h
      exact (checkExamConflicts_eq_nil_iff hd he).mp h0 e he2 hb
    exact ⟨hne, processExamChange_create_pending d userId deviceId now db hne⟩

def emptyOfflineDb : DB :=
  { exams := [], nextExamId := 5, pending := [], notifs := [] }

/-- Witness for C2: against an empty exams table the candidate is committed
and reported `created`. -/
theorem C2_offline_create_outcome_witness :
    processExamChange "create" offlineCandidateData 1 "device-1" 1000 emptyOfflineDb =
      .ok ({ changeId := 7
             action := "created"
             examId := some 5
             message := "Exam created successfully"
             conflicts := [] },
           { exams := [createdExam offlineCandidateData 1 5]
             nextExamId := 6
             pending := []
             notifs := [] }) := by
  have h :=
    (C2_offline_create_outcome offlineCandidateData 1 "device-1" 1000 emptyOfflineDb
        (by decide)
        (fun e he2 => absurd he2 (List.not_mem_nil e))).1
      (fun e he2 => absurd he2 (List.not_mem_nil e))
  simpa [emptyOfflineDb] using h

/-! ## Claim C7 -/

/-- Claim C7: saving a PendingChange is an idempotent upsert keyed by the
change id: saving twice with the same change id leaves the table with no
duplicate (the result equals a single direct save of the later record),
and the one stored record under that id is the later save. -/
theorem C7_pending_save_idempotent (p1 p2 : PendingRow) (tbl : List PendingRow)
    (h : p1.change_id = p2.change_id) :
    storePendingChange p2 (storePendingChange p1 tbl) =
      tbl.filter (fun q => q.change_id != p2.change_id) ++ [p2] ∧
    (storePendingChange p2 (storePendingChange p1 tbl)).filter
        (fun q => q.change_id == p2.change_id) = [p2] := by
  have hfirst :
      storePendingChange p2 (storePendingChange p1 tbl) =
        tbl.filter (fun q => q.change_id != p2.change_id) ++ [p2] := by
    simp only [storePendingChange, List.filter_append, List.filter_filter, h]
    simp [Bool.and_self, h]
  refine ⟨hfirst, ?_⟩
  rw [hfirst, List.filter_append, List.filter_filter]
  simp [bne]

def retriedRowA : PendingRow :=
  { change_id := "change-1"
    change_type := "exam"
    change_action := "create"
    change_data := offlineCandidateData
    user_id := 1
    device_id := "device-1"
    created_at := 1000 }

def retriedRowB : PendingRow :=
  { change_id := "change-1"
    change_type := "exam"
    change_action := "create"
    change_data := { offlineCandidateData with venue := "Room 303" }
    user_id := 1
    device_id := "device-2"
    created_at := 2000 }

/-- Witness for C7 at two concrete saves under the same change id. -/
theorem C7_pending_save_idempotent_witness :
    (storePendingChange retriedRowB (storePendingChange retriedRowA [])).filter
        (fun q => q.change_id == retriedRowB.change_id) = [retriedRowB] :=
  (C7_pending_save_idempotent retriedRowA retriedRowB [] rfl).2

/-! ## Claims C6 and C8: the batch loop -/

theorem syncLoop_invariant (userId : Nat) (deviceId : String) (clock : Nat → Nat)
    (changes : List Change) :
    ∀ (i : Nat) (db : DB) (acc : SyncResults),
      (syncLoop userId deviceId clock i changes db acc).1.successful.length +
          (syncLoop userId deviceId clock i changes db acc).1.failed.length =
        acc.successful.length + acc.failed.length + changes.length ∧
      (syncLoop userId deviceId clock i changes db acc).1.summary.processed =
        acc.summary.processed + changes.length ∧
      (syncLoop userId deviceId clock i changes db acc).1.summary.successful +
          acc.successful.length =
        acc.summary.successful +
          (syncLoop userId deviceId clock i changes db acc).1.successful.length ∧
      (syncLoop userId deviceId clock i changes db acc).1.summary.failed +
          acc.failed.length =
        acc.summary.failed +
          (syncLoop userId deviceId clock i changes db acc).1.failed.length ∧
      (syncLoop userId deviceId clock i changes db acc).1.conflicts = acc.conflicts ∧
      (syncLoop userId deviceId clock i changes db acc).1.summary.conflicts =
        acc.summary.conflicts := by
  induction changes with
  | nil => intro i db acc; simp [syncLoop]
  | cons ch rest ih =>
    intro i db acc
    cases hstep : processOfflineChange ch userId deviceId (clock i) db with
    | ok pr =>
      obtain ⟨r, db1⟩ := pr
      have h := ih (i + 1) db1
        { acc with
          successful := acc.successful ++ [r]
          summary := { acc.summary with
            successful := acc.summary.successful + 1
            processed := acc.summary.processed + 1 } }
      simp only [syncLoop, hstep]
      obtain ⟨h1, h2, h3, h4, h5, h6⟩ := h
      simp only [List.length_append, List.length_cons, List.length_nil] at h1 h2 h3 h4 h5 h6 ⊢
      exact ⟨by omega, by omega, by omega, by omega, h5, h6⟩
    | error e =>
      have h := ih (i + 1) db
        { acc with
          failed := acc.failed ++ [{ changeId := ch.id, errorOf := e }]
          summary := { acc.summary with
            failed := acc.summary.failed + 1
            processed := acc.summary.processed + 1 } }
      simp only [syncLoop, hstep]
      obtain ⟨h1, h2, h3, h4, h5, h6⟩ := h
      simp only [List.length_append, List.length_cons, List.length_nil] at h1 h2 h3 h4 h5 h6 ⊢
      exact ⟨by omega, by omega, by omega, by omega, h5, h6⟩

def notifReadData : ExamData :=
  { offlineCandidateData with id := 21 }

def notifDeleteData : ExamData :=
  { offlineCandidateData with id := 23 }

def faultBatchItem1 : Change :=
  { id := "c1", ctype := "notification", action := "mark_read", data := notifReadData }

def faultBatchItem2 : Change :=
  { id := "c2", ctype := "bogus", action := "create", data := offlineCandidateData }

def faultBatchItem3 : Change :=
  { id := "c3", ctype := "notification", action := "delete", data := notifDeleteData }

/-- Claim C6: batch processing is sequential and per-item fault-isolated:
every item of the batch yields exactly one entry in either the successful
or the failed list, `summary.processed` equals the batch length, and the
summary counters match the list lengths; concretely a batch of 3 whose
item 2 raises still reports results for items 1 and 3 and the error for
item 2. -/
theorem C6_batch_fault_isolation
    (userId : Nat) (deviceId : String) (clock : Nat → Nat)
    (changes : List Change) (db : DB) :
    ((applySync userId deviceId clock changes db).1.successful.length +
        (applySync userId deviceId clock changes db).1.failed.length = changes.length ∧
      (applySync userId deviceId clock changes db).1.summary.processed = changes.length ∧
      (applySync userId deviceId clock changes db).1.summary.successful =
        (applySync userId deviceId clock changes db).1.successful.length ∧
      (applySync userId deviceId clock changes db).1.summary.failed =
        (applySync userId deviceId clock changes db).1.failed.length) ∧
    (applySync 1 "device-1" (fun _ => 0)
          [faultBatchItem1, faultBatchItem2, faultBatchItem3] emptyOfflineDb).1.successful.map
        (fun r => r.changeId) = [21, 23] ∧
    (applySync 1 "device-1" (fun _ => 0)
          [faultBatchItem1, faultBatchItem2, faultBatchItem3] emptyOfflineDb).1.failed.map
        (fun f => (f.changeId, f.errorOf)) = [("c2", .unknownChangeType "bogus")] := by
  refine ⟨?_, rfl, rfl⟩
  have h := syncLoop_invariant userId deviceId clock changes 0 db
    (emptyResults changes.length)
  simp only [applySync, emptyResults]
  obtain ⟨h1, h2, h3, h4, _, _⟩ := h
  simp only [emptyResults, List.length_nil] at h1 h2 h3 h4
  exact ⟨by omega, by omega, by omega, by omega⟩

def pendingCreateChange : Change :=
  { id := "c9", ctype := "exam", action := "create", data := offlineCandidateData }

/-- Claim C8: a normally returning batch sync always has an empty
`conflicts` list and `summary.conflicts = 0`; an `exam.create` parked for
conflict resolution lands in the successful list with action
`pending_resolution` and is counted in `summary.successful`. -/
theorem C8_conflicts_channel_unused
    (userId : Nat) (deviceId : String) (clock : Nat → Nat)
    (changes : List Change) (db : DB) :
    ((applySync userId deviceId clock changes db).1.conflicts = [] ∧
      (applySync userId deviceId clock changes db).1.summary.conflicts = 0) ∧
    (applySync 1 "device-1" (fun _ => 1000) [pendingCreateChange] offlineDb).1.successful.map
        (fun r => r.action) = ["pending_resolution"] ∧
    (applySync 1 "device-1" (fun _ => 1000) [pendingCreateChange] offlineDb).1.summary.successful
        = 1 ∧
    (applySync 1 "device-1" (fun _ => 1000) [pendingCreateChange] offlineDb).1.summary.conflicts
        = 0 := by
  refine ⟨?_, rfl, rfl, rfl⟩
  have h := syncLoop_invariant userId deviceId clock changes 0 db
    (emptyResults changes.length)
  simp only [applySync, emptyResults]
  obtain ⟨_, _, _, _, h5, h6⟩ := h
  simp only [emptyResults] at h5 h6
  exact ⟨h5, h6⟩

/-! ## Claim C9: identity of stored pending records -/

theorem append_left_cancel_ne {p a b : String} (h : a ≠ b) : p ++ a ≠ p ++ b := by
  intro hc
  apply h
  apply String.ext
  have hdata := congrArg String.data hc
  rw [String.data_append p a, String.data_append p b] at hdata
  exact List.append_cancel_left hdata

theorem storePendingChange_filter_self (p : PendingRow) (tbl : List PendingRow) :
    (storePendingChange p tbl).filter (fun q => q.change_id == p.change_id) = [p] := by
  rw [storePendingChange, List.filter_append, List.filter_filter]
  simp [bne]

theorem storePendingChange_filter_other (p : PendingRow) (s : String)
    (tbl : List PendingRow) (h : p.change_id ≠ s) :
    (storePendingChange p tbl).filter (fun q => q.change_id == s) =
      tbl.filter (fun q => q.change_id == s) := by
  rw [storePendingChange, List.filter_append, List.filter_filter]
  have hp : ∀ q : PendingRow,
      ((q.change_id == s) && (q.change_id != p.change_id)) = (q.change_id == s) := by
    intro q
    by_cases hq : q.change_id = s
    · simp [hq, bne, Ne.symm h]
    · simp [hq]
  simp only [hp]
  simp [h]

theorem store_store_counts (r1 r2 : PendingRow) (tbl : List PendingRow)
    (h : r1.change_id ≠ r2.change_id) :
    ((storePendingChange r2 (storePendingChange r1 tbl)).filter
        (fun q => q.change_id == r1.change_id)).length = 1 ∧
    ((storePendingChange r2 (storePendingChange r1 tbl)).filter
        (fun q => q.change_id == r2.change_id)).length = 1 := by
  constructor
  · rw [storePendingChange_filter_other r2 r1.change_id _ (Ne.symm h),
      storePendingChange_filter_self]
    rfl
  · rw [storePendingChange_filter_self]
    rfl

def clientChangeA : Change :=
  { id := "client-123", ctype := "exam", action := "create", data := offlineCandidateData }

def clientChangeB : Change :=
  { id := "client-456", ctype := "exam", action := "create", data := offlineCandidateData }

/-- Claim C9 counterexample: the batch item's own id is NOT echoed back as
the item's `changeId`: the processor returns identical results under two
different item ids, and the reported `changeId` is the payload's `data.id`
(here 7), while the pending record is stored under the server-generated
`exam_create_2000`. -/
theorem C9_counterexample :
    clientChangeA.id ≠ clientChangeB.id ∧
    processOfflineChange clientChangeA 1 "device-1" 2000 offlineDb =
      processOfflineChange clientChangeB 1 "device-1" 2000 offlineDb ∧
    (processOfflineChange clientChangeA 1 "device-1" 2000 offlineDb).toOption.map
        (fun x => (x.1.changeId, x.2.pending.map (fun q => q.change_id))) =
      some (offlineCandidateData.id, ["exam_create_2000"]) := by
  exact ⟨by decide, rfl, rfl⟩

/-- Claim C9 amended: every pending record persisted for a conflicting
`exam.create` is stored under the server-generated id `exam_create_` ++
`Date.now()`; the batch item's caller-supplied id is not used at all (the
reported `changeId` echoes the payload's `data.id` instead); consequently
the same change retried at a millisecond with a different decimal
rendering (i.e. any different millisecond) is stored as a new, distinct
pending record rather than replacing the earlier one. -/
theorem C9_pending_ids_server_generated
    (d : ExamData) (userId : Nat) (deviceId : String) (db : DB) (now1 now2 : Nat)
    (hd : d.time < 1440) (he : ∀ e ∈ db.exams, e.time < 1440)
    (hb : ∃ e ∈ db.exams, blocks d e)
    (hne : toString now1 ≠ toString now2) :
    ∃ r1 db1 r2 db2,
      processExamChange "create" d userId deviceId now1 db = .ok (r1, db1) ∧
      processExamChange "create" d userId deviceId now2 db1 = .ok (r2, db2) ∧
      r1.changeId = d.id ∧ r2.changeId = d.id ∧
      ("exam_create_" ++ toString now1 : String) ≠ "exam_create_" ++ toString now2 ∧
      (db2.pending.filter
          (fun q => q.change_id == "exam_create_" ++ toString now1)).length = 1 ∧
      (db2.pending.filter
          (fun q => q.change_id == "exam_create_" ++ toString now2)).length = 1 := by
  have hcc : checkExamConflicts d db.exams ≠ [] := by
    intro h0
    obtain ⟨e, he2, hbe⟩ := hb
    exact (checkExamConflicts_eq_nil_iff hd he).mp h0 e he2 hbe
  have hid : ("exam_create_" ++ toString now1 : String) ≠ "exam_create_" ++ toString now2 :=
    append_left_cancel_ne hne
  have h1 := processExamChange_create_pending d userId deviceId now1 db hcc
  have h2 := processExamChange_create_pending d userId deviceId now2
    { db with
      pending :=
        storePendingChange
          (pendingRowFor d (checkExamConflicts d db.exams) userId deviceId now1)
          db.pending } hcc
  have hcnt := store_store_counts
    (pendingRowFor d (checkExamConflicts d db.exams) userId deviceId now1)
    (pendingRowFor d (checkExamConflicts d db.exams) userId deviceId now2)
    db.pending hid
  exact ⟨_, _, _, _, h1, h2, rfl, rfl, hid, hcnt.1, hcnt.2⟩

/-- Witness for C9 at a concrete conflicting create retried at milliseconds
1000 and 2000. -/
theorem C9_pending_ids_server_generated_witness :
    ∃ r1 db1 r2 db2,
      processExamChange "create" offlineCandidateData 1 "device-1" 1000 offlineDb =
        .ok (r1, db1) ∧
      processExamChange "create" offlineCandidateData 1 "device-1" 2000 db1 =
        .ok (r2, db2) ∧
      r1.changeId = offlineCandidateData.id ∧ r2.changeId = offlineCandidateData.id ∧
      ("exam_create_" ++ toString 1000 : String) ≠ "exam_create_" ++ toString 2000 ∧
      (db2.pending.filter
          (fun q => q.change_id == "exam_create_" ++ toString 1000)).length = 1 ∧
      (db2.pending.filter
          (fun q => q.change_id == "exam_create_" ++ toString 2000)).length = 1 :=
  C9_pending_ids_server_generated offlineCandidateData 1 "device-1" offlineDb 1000 2000
    (by decide) (by decide) ⟨offlineAfternoonExam, by decide, by decide⟩ (by decide)

/-! ## Claim C3: resolving with accept -/

def resolveTargetExam : Exam :=
  { id := 11
    course_code := "PH100"
    course_name := "Physics I"
    date := "2024-12-15"
    time := 840
    venue := "Room 101"
    duration := 60
    status := some .upcoming
    created_by := 2 }

/-- The pending row a conflicting create left behind: the stored payload is
the candidate data plus the conflicts computed against the live table. -/
def storedPendingRow : PendingRow :=
  { change_id := "exam_create_1000"
    change_type := "exam"
    change_action := "create"
    change_data :=
      { offlineCandidateData with
        conflicts := checkExamConflicts offlineCandidateData [resolveTargetExam] }
    user_id := 1
    device_id := "device-1"
    created_at := 1000 }

def resolveDb : DB :=
  { exams := [resolveTargetExam], nextExamId := 12, pending := [storedPendingRow], notifs := [] }

/-- Claim C3 (code bug): resolving a pending exam-create with `accept` does
NOT commit the booking.  The route re-invokes `processOfflineChange`, whose
create branch runs `checkExamConflicts` again (despite the comment
`Process the change without conflict checking`); the still-present conflict
re-parks the payload under a fresh `exam_create_` ++ `Date.now()` id, the
exams table is left unchanged, and only then is the original pending row
deleted. -/
theorem C3_accept_reprocesses_with_detection :
    resolveDb.pending.map (fun q => q.change_id) = ["exam_create_1000"] ∧
    checkExamConflicts storedPendingRow.change_data resolveDb.exams ≠ [] ∧
    (resolveChange "exam_create_1000" 1 "accept" none 9000 resolveDb).toOption.map
        (fun x => (x.1.exams, x.1.pending.map (fun q => q.change_id))) =
      some (resolveDb.exams, ["exam_create_9000"]) := by
  exact ⟨rfl, by decide, rfl⟩

/-! ## Claim C5: the update branch -/

def foreignOwnedExam : Exam :=
  { id := 5
    course_code := "CS101"
    course_name := "Algorithms"
    date := "2024-12-15"
    time := 540
    venue := "Room 101"
    duration := 60
    status := some .upcoming
    created_by := 99 }

def foreignOwnedDb : DB :=
  { exams := [foreignOwnedExam], nextExamId := 6, pending := [], notifs := [] }

def updatePayload : ExamData :=
  { id := 5
    course_code := "CS999"
    course_name := "New Name"
    date := "2024-12-16"
    time := 600
    venue := "Room 102"
    duration := 90
    status := some .upcoming
    conflicts := [] }

def updateMissingPayload : ExamData :=
  { updatePayload with id := 77 }

/-- Claim C5 (code bug): the update branch handles the missing booking and
the owner case as claimed, but every non-owner actor, admins included,
fails with the JavaScript `ReferenceError: req is not defined` from the
`req.user.role` read, so the admin override never happens and the intended
permission error is never raised (the model carries no role because the
code crashes before the role could matter). -/
theorem C5_update_branch_behavior :
    processExamChange "update" updatePayload 1 "device-1" 0 foreignOwnedDb =
      .error .referenceErrorReq ∧
    processExamChange "update" updateMissingPayload 1 "device-1" 0 foreignOwnedDb =
      .error .examNotFound ∧
    (processExamChange "update" updatePayload 99 "device-1" 0 foreignOwnedDb).toOption.map
        (fun x => (x.1.action, x.2.exams.map (fun e => e.course_code))) =
      some ("updated", ["CS999"]) := by
  exact ⟨rfl, rfl, rfl⟩

/-! ## Claim C10: simpleHash -/

/-- JavaScript `ToInt32`: reduce an integer modulo `2^32` into the range
`[-2^31, 2^31)`. -/
def toInt32 (n : Int) : Int :=
  let m := n % 4294967296
  if m < 2147483648 then m else m - 4294967296

/-- One iteration of `simpleHash`: `hash = ((hash << 5) - hash) + char`
then `hash = hash & hash`.  For an int32 `hash`, `hash << 5` is
`ToInt32(hash * 32)`, the following subtraction and addition are exact in
double precision at these magnitudes, and `hash & hash` is `ToInt32`. -/
def simpleHashStep (hash : Int) (c : Nat) : Int :=
  toInt32 (toInt32 (hash * 32) - hash + c)

/-- Lowercase hexadecimal rendering of a natural number. -/
def hexString (n : Nat) : String := (Nat.toDigits 16 n).asString

/-- JavaScript `Number.prototype.toString(16)` on an integer: lowercase hex
digits, with a leading minus for a negative value. -/
def jsHexString (n : Int) : String :=
  if n < 0 then "-" ++ hexString n.natAbs else hexString n.toNat

/-- `simpleHash` of the source, over the UTF-16 code units the JavaScript
`charCodeAt` yields (equal to the bytes for ASCII payloads). -/
def simpleHash (s : List Nat) : String :=
  jsHexString (s.foldl simpleHashStep 0)

/-- The fingerprint as the specification words it: `h = 0; for each byte b:
h = (h*31 + b) mod 2^32`, rendered as hexadecimal. -/
def rollingHash (s : List Nat) : Nat :=
  s.foldl (fun h b => (h * 31 + b) % 4294967296) 0

def specFingerprint (s : List Nat) : String := hexString (rollingHash s)

/-- Claim C10 counterexample: on the code units of `hello ` the rolling
hash is 3074032014, whose signed 32-bit reading is negative, so the code
renders a minus-prefixed string while the claim's unsigned rendering does
not match. -/
theorem C10_counterexample :
    simpleHash [104, 101, 108, 108, 111, 32] ≠
      specFingerprint [104, 101, 108, 108, 111, 32] := by
  decide

/-- The signed 32-bit reading of an unsigned 32-bit value. -/
def signedOf (u : Nat) : Int :=
  if u < 2147483648 then (u : Int) else (u : Int) - 4294967296

theorem rollingHash_aux_lt (s : List Nat) :
    ∀ u : Nat, u < 4294967296 →
      List.foldl (fun h b => (h * 31 + b) % 4294967296) u s < 4294967296 := by
  induction s with
  | nil => intro u hu; simpa using hu
  | cons c rest ih =>
    intro u hu
    simpa using ih ((u * 31 + c) % 4294967296) (Nat.mod_lt _ (by omega))

theorem simpleHashStep_signed (u c : Nat) (_hu : u < 4294967296) :
    simpleHashStep (signedOf u) c = signedOf ((u * 31 + c) % 4294967296) := by
  simp only [simpleHashStep, toInt32, signedOf]
  split_ifs <;> omega

theorem foldl_simpleHashStep_signed (s : List Nat) :
    ∀ u : Nat, u < 4294967296 →
      List.foldl simpleHashStep (signedOf u) s =
        signedOf (List.foldl (fun h b => (h * 31 + b) % 4294967296) u s) := by
  induction s with
  | nil => intro u _; rfl
  | cons c rest ih =>
    intro u hu
    simp only [List.foldl_cons, simpleHashStep_signed u c hu]
    exact ih ((u * 31 + c) % 4294967296) (Nat.mod_lt _ (by omega))

/-- Claim C10 amended: the fingerprint is the JavaScript signed rendering
of the rolling hash over the payload's UTF-16 code units: with
`u = fold of (h*31 + b) mod 2^32`, the result is the hexadecimal rendering
of `u` when `u < 2^31` and the minus-prefixed rendering of `2^32 - u`
otherwise. -/
theorem C10_simpleHash_signed_rendering (s : List Nat) :
    simpleHash s =
      if rollingHash s < 2147483648 then hexString (rollingHash s)
      else "-" ++ hexString (4294967296 - rollingHash s) := by
  have hlt : rollingHash s < 4294967296 := rollingHash_aux_lt s 0 (by omega)
  have h0 : (0 : Int) = signedOf 0 := by simp [signedOf]
  have hfold : List.foldl simpleHashStep 0 s = signedOf (rollingHash s) := by
    rw [h0]
    exact foldl_simpleHashStep_signed s 0 (by omega)
  rw [simpleHash, hfold]
  by_cases hc : rollingHash s < 2147483648
  · rw [if_pos hc]
    rw [signedOf, if_pos hc, jsHexString, if_neg (by omega)]
    simp
  · rw [if_neg hc]
    rw [signedOf, if_neg hc, jsHexString, if_pos (by omega)]
    congr 1
    have habs : ((rollingHash s : Int) - 4294967296).natAbs = 4294967296 - rollingHash s := by
      omega
    rw [habs]

end ExamSync
